import Mathlib

/-!
Verification of the schema-change notification relay (`src/bot.py`).

The file shallowly embeds the pure core of `bot.py`:

* `safe_truncate` (bot.py lines 32-34),
* the subject normalization and the classifier of
  `handle_schema_notification` (lines 183-199), including the
  process-wide dedup cache (lines 29-30, 195-199),
* the diff engine `generate_schema_diff` (lines 132-157),
* the startup reconciliation `sync_schema_snapshots` (lines 95-126),
  with the database catalog and the per-table introspection
  (`get_current_table_schema`) abstracted as inputs,
* the database phase and message composition of
  `handle_schema_notification` (lines 201-274), with the database
  outcome abstracted as an input so that failure behaviour is statable.

Python strings are modelled as `String`/`List Char`; Python `dict`s are
modelled as association lists (`List (key × value)`), whose keys are
distinct in every state a Python `dict` can produce; timestamps are
modelled as integer time units (`Int`).
-/

set_option autoImplicit false

namespace Bot

/-! ### Python string primitives -/

/-- Python `str.isspace` characters relevant to `str.strip()`. -/
def isPySpace (c : Char) : Bool :=
  c = ' ' || c = '\t' || c = '\n' || c = '\r' || c = '\x0b' || c = '\x0c'

/-- Python `str.strip()` on a character list: drop whitespace from both ends. -/
def stripChars (l : List Char) : List Char :=
  ((l.dropWhile isPySpace).reverse.dropWhile isPySpace).reverse

/-- One scanning pass of Python `str.replace`: `skip` counts characters still
to be consumed by an already-emitted replacement (so matches never overlap). -/
def replaceSkip (pat repl : List Char) : Nat → List Char → List Char
  | _, [] => []
  | Nat.succ k, _ :: rest => replaceSkip pat repl k rest
  | 0, c :: rest =>
    if pat.isPrefixOf (c :: rest) then
      repl ++ replaceSkip pat repl (pat.length - 1) rest
    else
      c :: replaceSkip pat repl 0 rest

/-- Python `str.replace(pat, repl)`: leftmost, non-overlapping occurrences. -/
def replaceList (pat repl l : List Char) : List Char :=
  replaceSkip pat repl 0 l

/-- Python `needle in hay` substring containment on character lists. -/
def containsSub (needle : List Char) : List Char → Bool
  | [] => needle.isEmpty
  | c :: rest => needle.isPrefixOf (c :: rest) || containsSub needle rest

/-- Python `needle in hay` on strings. -/
def pyIn (needle hay : String) : Bool :=
  containsSub needle.data hay.data

/-- Python `str.lower()` (ASCII-adequate model). -/
def pyLower (s : String) : String :=
  String.mk (s.data.map Char.toLower)

/-! ### `safe_truncate` (bot.py lines 32-34) -/

/-- The marker appended by `safe_truncate` when it cuts the text. -/
def truncMarker : String := "\n\n... [Truncated: Exceeded Slack Limits]"

/-- Embedding of `safe_truncate(text, limit=2500)`.  `none` models Python
`None`; `if not text` is the Python falsiness test (None or empty string).
Every call in `bot.py` uses the default `limit = 2500`. -/
def safe_truncate (text : Option String) (limit : Nat) : String :=
  match text with
  | none => ""
  | some t =>
    if t.data.isEmpty then ""
    else if t.length ≤ limit then t
    else String.mk (t.data.take limit) ++ truncMarker

/-! ### Association-list model of Python `dict` / keyed SQL table -/

/-- First value bound to key `k` (Python `d[k]` / `SELECT ... WHERE key = k`). -/
def lookupAssoc {α : Type} (l : List (String × α)) (k : String) : Option α :=
  (l.find? (fun p => p.1 == k)).map (fun p => p.2)

/-- Key-update (Python `d[k] = v` / SQL upsert): replace in place when the key
is present, append otherwise. -/
def updateAssoc {α : Type} (l : List (String × α)) (k : String) (v : α) :
    List (String × α) :=
  if l.any (fun p => p.1 == k) then
    l.map (fun p => if p.1 == k then (k, v) else p)
  else
    l ++ [(k, v)]

/-! ### Event classification and dedup (bot.py lines 29-30, 183-199) -/

/-- Wire payload of one `schema_changes` notification.  `none` models an
absent JSON key (`payload.get(...)` returning `None`). -/
structure SchemaPayload where
  command_tag : Option String
  object_name : Option String
  object_identity : Option String
  object_type : Option String
deriving DecidableEq

/-- Embedding of `payload.get("object_name") or payload.get("object_identity")
or ""` (bot.py line 186): the first present, non-empty value, else `""`. -/
def rawNameOf (p : SchemaPayload) : String :=
  let n := p.object_name.getD ""
  if n = "" then p.object_identity.getD "" else n

/-- Embedding of the normalization on bot.py line 190:
`raw_name.replace('public.', '').replace('"', '').replace('[]', '').strip()`. -/
def normalize (raw : String) : String :=
  String.mk (stripChars
    (replaceList "[]".data []
      (replaceList ['"'] []
        (replaceList "public.".data [] raw.data))))

/-- Noise substrings of bot.py line 193. -/
def noisePatterns : List String := ["_pkey", "_seq", "_idx", "pg_toast", "_fkey"]

/-- State of the process-wide dedup cache `_recent_notifications`
(bot.py line 30): normalized name to last recorded timestamp. -/
abbrev DedupCache := List (String × Int)

/-- Embedding of the guarded dedup check-and-set of bot.py lines 195-199:
returns whether the event is accepted, together with the new cache.  A
rejected duplicate returns before the cache assignment runs. -/
def dedupStep (cache : DedupCache) (name : String) (now : Int) :
    Bool × DedupCache :=
  match lookupAssoc cache name with
  | some prior =>
    if now - prior < 5 then (false, cache)
    else (true, updateAssoc cache name now)
  | none => (true, updateAssoc cache name now)

/-- The pure classification part of `handle_schema_notification`
(bot.py lines 183-199): returns `some normalized` when the event is
actionable (the function proceeds past line 199), `none` when one of the
early `return`s fires, together with the dedup cache after the call. -/
def classify (p : SchemaPayload) (cache : DedupCache) (now : Int) :
    Option String × DedupCache :=
  let command := p.command_tag.getD ""
  let raw_name := rawNameOf p
  if raw_name = "" ∨
      ¬(command = "CREATE TABLE" ∨ command = "ALTER TABLE" ∨
        command = "DROP TABLE") then
    (none, cache)
  else
    let normalized_name := normalize raw_name
    if noisePatterns.any
        (fun pat => containsSub pat.data (pyLower normalized_name).data) then
      (none, cache)
    else
      let r := dedupStep cache normalized_name now
      if r.1 then (some normalized_name, r.2) else (none, r.2)

/-! ### Diff engine `generate_schema_diff` (bot.py lines 132-157) -/

/-- One column's description, as produced by `get_current_table_schema`
(`{'type': ..., 'nullable': ..., 'default': ...}`); `none` models both an
absent key (for `.get`) and a JSON null. -/
structure ColDetails where
  typeF : Option String
  nullableF : Option String
  defaultF : Option String
deriving DecidableEq

/-- A `columns_data` JSON object: column name to details.  Keys produced by
`jsonb_object_agg` are distinct. -/
abbrev Cols := List (String × ColDetails)

/-- Python `col in dict`. -/
def memCols (cols : Cols) (c : String) : Bool :=
  cols.any (fun p => p.1 == c)

/-- One line appended to `changes` in `generate_schema_diff`, kept structured
before rendering so entries of distinct kinds are never confused. -/
inductive ChangeEntry where
  | added (col : String) (dtype : String)
  | removed (col : String)
  | modified (col : String) (oldType newType : Option String)
deriving DecidableEq

/-- Python string interpolation of a possibly-absent value (`None` prints as
`"None"`). -/
def pyShowOpt : Option String → String
  | none => "None"
  | some s => s

/-- The exact f-string each kind of entry is rendered to (bot.py lines
140, 145, 152). -/
def renderEntry : ChangeEntry → String
  | .added c t => "🟢 *Added Column:* `" ++ c ++ "` (" ++ t ++ ")"
  | .removed c => "🔴 *Removed Column:* `" ++ c ++ "`"
  | .modified c ot nt =>
    "🔵 *Modified Type:* `" ++ c ++ "` (" ++ pyShowOpt ot ++ " → " ++
      pyShowOpt nt ++ ")"

/-- The `changes` list of `generate_schema_diff` (bot.py lines 134-152):
the additions loop, then the removals loop, then the type-change loop. -/
def schemaDiffEntries (old_cols new_cols : Cols) : List ChangeEntry :=
  (new_cols.filterMap fun p =>
    if memCols old_cols p.1 then none
    else some (.added p.1 (p.2.typeF.getD "unknown")))
  ++ (old_cols.filterMap fun p =>
    if memCols new_cols p.1 then none
    else some (.removed p.1))
  ++ (new_cols.filterMap fun p =>
    match lookupAssoc old_cols p.1 with
    | none => none
    | some od =>
      if od.typeF ≠ p.2.typeF then some (.modified p.1 od.typeF p.2.typeF)
      else none)

/-- The placeholder returned when `changes` is empty (bot.py line 155). -/
def noChangeText : String :=
  "• _No column structure changes detected (might be a constraint/index change)_"

/-- Embedding of `generate_schema_diff(old_cols, new_cols)`
(bot.py lines 132-157). -/
def generate_schema_diff (old_cols new_cols : Cols) : String :=
  let changes := (schemaDiffEntries old_cols new_cols).map renderEntry
  if changes.isEmpty then noChangeText
  else String.intercalate "\n" changes

/-! ### Snapshot store and reconciliation (bot.py lines 95-126) -/

/-- One row of `public.schema_snapshots` (the `updated_at` column, always set
to `now()`, is not modelled). -/
structure Snapshot where
  columns_data : Cols
  raw_sql : String
deriving DecidableEq

/-- The `schema_snapshots` table, keyed by `table_name` (unique key). -/
abbrev Store := List (String × Snapshot)

/-- The live-table list of bot.py lines 101-105: the catalog's base tables
of schema `public` minus the store's own table (`table_name !=
'schema_snapshots'`).  `all_tables` is the catalog listing; the
`table_schema = 'public' AND table_type = 'BASE TABLE'` restriction is part
of that input. -/
def liveTablesOf (all_tables : List String) : List String :=
  all_tables.filter (fun t => ¬(t = "schema_snapshots"))

/-- The prune of bot.py lines 108-111: `DELETE ... WHERE table_name NOT IN
%s` keeps exactly the rows whose key is in the live set; with an empty live
set the whole store is deleted. -/
def prunedStore (store : Store) (live_full_names : List String) : Store :=
  if live_full_names.isEmpty then []
  else store.filter (fun p => live_full_names.contains p.1)

/-- Embedding of `sync_schema_snapshots` (bot.py lines 95-126).  `describe`
abstracts `get_current_table_schema(conn, full_name)`.  The function prunes
snapshots not in the live set, then upserts a fresh snapshot per live
table (lines 113-120). -/
def sync_schema_snapshots (store : Store) (all_tables : List String)
    (describe : String → Cols × String) : Store :=
  let live_tables := liveTablesOf all_tables
  let live_full_names := live_tables.map (fun t => "public." ++ t)
  live_tables.foldl
    (fun st t =>
      updateAssoc st ("public." ++ t)
        ⟨(describe ("public." ++ t)).1, (describe ("public." ++ t)).2⟩)
    (prunedStore store live_full_names)

/-! ### Orchestrator: database phase and message send (bot.py lines 201-274) -/

/-- The message handed to `app.client.chat_postMessage` (bot.py line 271),
reduced to the fields the spec talks about: the channel, the section text,
and whether a "View Full Schema" button block is attached. -/
structure SlackMessage where
  channel : String
  text : String
  hasButton : Bool
deriving DecidableEq

/-- Message composition of bot.py lines 255-268 from the command tag, the
normalized name and the `diff_text` accumulated by the database phase. -/
def buildSchemaMessage (command normalized_name diff_text : String) :
    SlackMessage :=
  let is_drop := pyIn "DROP" command
  let main_text :=
    (if is_drop then "🗑️ *Table Deleted*" else "📝 *Schema Change Detected*")
      ++ "\n• *Table:* `" ++ normalized_name ++ "`\n• *Action:* `"
      ++ command ++ "`"
  let main_text :=
    if diff_text ≠ "" then
      main_text ++ "\n\n*Changes Detected:*\n" ++ diff_text
    else main_text
  ⟨"supabase-schema-updates", main_text, !is_drop⟩

/-- Success path of the database phase (the `try` body, bot.py lines
206-248): branch on the command, mutate the store, and return the new store
together with the `diff_text` variable. -/
def dbPhase (command full_db_name : String) (store : Store)
    (describe : String → Cols × String) : Store × String :=
  if pyIn "DROP" command then
    (store.filter (fun p => ¬(p.1 = full_db_name)), "")
  else if pyIn "ALTER" command then
    let old_cols := ((lookupAssoc store full_db_name).map
      (fun s => s.columns_data)).getD []
    let d := describe full_db_name
    let diff_text :=
      if old_cols.isEmpty then "" else generate_schema_diff old_cols d.1
    (updateAssoc store full_db_name ⟨d.1, d.2⟩, diff_text)
  else if pyIn "CREATE" command then
    let d := describe full_db_name
    (updateAssoc store full_db_name ⟨d.1, d.2⟩, "")
  else (store, "")

/-- Outcome of the `try` block around the database phase: either it ran to
completion (new store, final `diff_text`), or it raised (`fail`), carrying
the error text and whatever `diff_text` had been assigned before the raise
(always `""` except for an ALTER that fails after computing the diff). -/
inductive DbPhaseResult where
  | ok (store : Store) (diffText : String)
  | fail (err : String) (diffText : String)
deriving DecidableEq

/-- Control flow after a raising or completing database phase (bot.py lines
250-274): an exception is caught and logged (line 251), after which message
composition and the `chat_postMessage` attempt run unconditionally.  Returns
the store, the log lines printed, and the list of posted messages.  On
failure the transaction was never committed, so the store is unchanged. -/
def afterDbPhase (command normalized_name : String) (store : Store)
    (r : DbPhaseResult) : Store × List String × List SlackMessage :=
  match r with
  | .ok store' diff_text =>
    (store', [], [buildSchemaMessage command normalized_name diff_text])
  | .fail e diff_text =>
    (store, ["❌ DB Ops Error: " ++ e],
      [buildSchemaMessage command normalized_name diff_text])

/-- The database-plus-send tail of `handle_schema_notification` including
the connection attempt of bot.py line 204, which sits *outside* the
`try`/`except`: a failed `psycopg2.connect` propagates out of the handler
(no log line from the handler, no message). -/
def handleDbAndSend (command normalized_name : String) (store : Store)
    (connect : Except String Unit) (r : DbPhaseResult) :
    Except String (Store × List String × List SlackMessage) :=
  match connect with
  | .error e => .error e
  | .ok _ => .ok (afterDbPhase command normalized_name store r)

/-! ### Association-list lemmas -/

theorem lookupAssoc_nil {α : Type} (k : String) :
    lookupAssoc ([] : List (String × α)) k = none := rfl

theorem lookupAssoc_cons {α : Type} (p : String × α) (l : List (String × α))
    (k : String) :
    lookupAssoc (p :: l) k =
      if p.1 = k then some p.2 else lookupAssoc l k := by
  by_cases h : p.1 = k <;> simp [lookupAssoc, List.find?_cons, h]

theorem lookupAssoc_eq_none_iff {α : Type} (l : List (String × α)) (k : String) :
    lookupAssoc l k = none ↔ ∀ p ∈ l, p.1 ≠ k := by
  simp [lookupAssoc, List.find?_eq_none]

theorem memCols_iff (cols : Cols) (c : String) :
    memCols cols c = true ↔ (lookupAssoc cols c).isSome = true := by
  simp [memCols, lookupAssoc, List.any_eq_true, List.find?_isSome]

theorem lookupAssoc_append {α : Type} (l₁ l₂ : List (String × α))
    (k : String) :
    lookupAssoc (l₁ ++ l₂) k = (lookupAssoc l₁ k).or (lookupAssoc l₂ k) := by
  rw [lookupAssoc, List.find?_append]
  cases h : List.find? (fun p => p.1 == k) l₁ <;> simp [lookupAssoc, h]

theorem any_key_iff {α : Type} (l : List (String × α)) (k : String) :
    (l.any fun p => p.1 == k) = true ↔ (lookupAssoc l k).isSome = true := by
  simp [lookupAssoc, List.any_eq_true, List.find?_isSome]

theorem lookupAssoc_map_replace_eq {α : Type} (l : List (String × α))
    (k : String) (v : α) :
    lookupAssoc (l.map (fun p => if p.1 == k then (k, v) else p)) k =
      (lookupAssoc l k).map (fun _ => v) := by
  induction l with
  | nil => rfl
  | cons p l ih =>
    rw [List.map_cons]
    by_cases hp : p.1 = k
    · have hb : (p.1 == k) = true := beq_iff_eq.2 hp
      rw [if_pos hb, lookupAssoc_cons, lookupAssoc_cons, if_pos rfl,
        if_pos hp]
      rfl
    · have hb : ¬((p.1 == k) = true) := by simpa using hp
      rw [if_neg hb, lookupAssoc_cons, lookupAssoc_cons, if_neg hp,
        if_neg hp, ih]

theorem lookupAssoc_map_replace_ne {α : Type} (l : List (String × α))
    (k k' : String) (v : α) (h : k' ≠ k) :
    lookupAssoc (l.map (fun p => if p.1 == k then (k, v) else p)) k' =
      lookupAssoc l k' := by
  induction l with
  | nil => rfl
  | cons p l ih =>
    rw [List.map_cons]
    by_cases hp : p.1 = k
    · have hb : (p.1 == k) = true := beq_iff_eq.2 hp
      have hk : ¬(k = k') := fun hh => h hh.symm
      have hp' : ¬(p.1 = k') := by rw [hp]; exact hk
      rw [if_pos hb, lookupAssoc_cons, lookupAssoc_cons, if_neg hk,
        if_neg hp', ih]
    · have hb : ¬((p.1 == k) = true) := by simpa using hp
      rw [if_neg hb, lookupAssoc_cons, lookupAssoc_cons, ih]

theorem lookupAssoc_updateAssoc_self {α : Type} (l : List (String × α))
    (k : String) (v : α) :
    lookupAssoc (updateAssoc l k v) k = some v := by
  rw [updateAssoc]
  by_cases h : (l.any fun p => p.1 == k) = true
  · rw [if_pos h, lookupAssoc_map_replace_eq]
    obtain ⟨x, hx⟩ := Option.isSome_iff_exists.1 ((any_key_iff l k).1 h)
    rw [hx]
    rfl
  · rw [if_neg h, lookupAssoc_append]
    have hn : lookupAssoc l k = none := by
      rcases hx : lookupAssoc l k with _ | x
      · rfl
      · exact absurd ((any_key_iff l k).2 (by rw [hx]; rfl)) h
    rw [hn, Option.none_or, lookupAssoc_cons, if_pos rfl]

theorem lookupAssoc_updateAssoc_ne {α : Type} (l : List (String × α))
    (k k' : String) (v : α) (h : k' ≠ k) :
    lookupAssoc (updateAssoc l k v) k' = lookupAssoc l k' := by
  rw [updateAssoc]
  by_cases hm : (l.any fun p => p.1 == k) = true
  · rw [if_pos hm]
    exact lookupAssoc_map_replace_ne l k k' v h
  · rw [if_neg hm, lookupAssoc_append]
    have : lookupAssoc [(k, v)] k' = none := by
      rw [lookupAssoc_cons, if_neg (fun hh : k = k' => h hh.symm)]
      rfl
    rw [this, Option.or_none]

theorem keys_updateAssoc {α : Type} (l : List (String × α)) (k : String)
    (v : α) :
    (updateAssoc l k v).map Prod.fst =
      if (l.any fun p => p.1 == k) = true then l.map Prod.fst
      else l.map Prod.fst ++ [k] := by
  rw [updateAssoc]
  by_cases hm : (l.any fun p => p.1 == k) = true
  · rw [if_pos hm, if_pos hm, List.map_map]
    refine List.map_congr_left (fun p _ => ?_)
    by_cases hp : p.1 = k
    · have hb : (p.1 == k) = true := beq_iff_eq.2 hp
      rw [Function.comp_apply, if_pos hb]
      exact hp.symm
    · have hb : ¬((p.1 == k) = true) := by simpa using hp
      rw [Function.comp_apply, if_neg hb]
  · rw [if_neg hm, if_neg hm, List.map_append]
    rfl

theorem mem_keys_updateAssoc {α : Type} (l : List (String × α))
    (k k' : String) (v : α) :
    k' ∈ (updateAssoc l k v).map Prod.fst ↔
      k' ∈ l.map Prod.fst ∨ k' = k := by
  rw [keys_updateAssoc]
  by_cases hm : (l.any fun p => p.1 == k) = true
  · rw [if_pos hm]
    constructor
    · exact fun h => Or.inl h
    · rintro (h | rfl)
      · exact h
      · simp only [List.any_eq_true, beq_iff_eq] at hm
        obtain ⟨p, hp, hk⟩ := hm
        exact List.mem_map.2 ⟨p, hp, hk⟩
  · rw [if_neg hm]
    simp

/-! ### C9 and C4: dedup behaviour -/

/-- C9: when an event is rejected as a duplicate (a prior timestamp for its
normalized subject exists and is less than 5 seconds old), the dedup cache is
left unchanged: the suppressed event does not refresh the stored timestamp. -/
theorem C9_dedup_frame (cache : DedupCache) (s : String) (now prior : Int)
    (h : lookupAssoc cache s = some prior) (hlt : now - prior < 5) :
    dedupStep cache s now = (false, cache) := by
  simp [dedupStep, h, hlt]

/-- Witness for C9 at a concrete cache and timestamps. -/
theorem C9_dedup_frame_witness :
    lookupAssoc ([("t", 0)] : DedupCache) "t" = some 0 ∧ (3 : Int) - 0 < 5 ∧
      dedupStep [("t", 0)] "t" 3 = (false, [("t", 0)]) :=
  ⟨by decide, by decide, C9_dedup_frame [("t", 0)] "t" 3 0 (by decide) (by decide)⟩

/-- C4: starting from a cache with no entry for the subject, two
otherwise-actionable events for the same normalized subject less than
5 seconds apart yield exactly one accepted action (the first accepted, the
second rejected, leaving the cache unchanged), and a third event 6 or more
seconds after the first accepted one is accepted again. -/
theorem C4_dedup_suppression (cache : DedupCache) (s : String)
    (t1 t2 t3 : Int) (h0 : lookupAssoc cache s = none)
    (h12 : t2 - t1 < 5) (h13 : 6 ≤ t3 - t1) :
    (dedupStep cache s t1).1 = true
    ∧ (dedupStep (dedupStep cache s t1).2 s t2).1 = false
    ∧ (dedupStep (dedupStep cache s t1).2 s t2).2 = (dedupStep cache s t1).2
    ∧ (dedupStep (dedupStep (dedupStep cache s t1).2 s t2).2 s t3).1 = true := by
  have e1 : dedupStep cache s t1 = (true, updateAssoc cache s t1) := by
    simp [dedupStep, h0]
  have lk : lookupAssoc (updateAssoc cache s t1) s = some t1 :=
    lookupAssoc_updateAssoc_self cache s t1
  have e2 : dedupStep (updateAssoc cache s t1) s t2 =
      (false, updateAssoc cache s t1) := by
    simp [dedupStep, lk, h12]
  have h35 : ¬(t3 - t1 < 5) := by omega
  have e3 : (dedupStep (updateAssoc cache s t1) s t3).1 = true := by
    simp [dedupStep, lk, h35]
  rw [e1]
  exact ⟨rfl, by rw [e2], by rw [e2], by rw [e2]; exact e3⟩

/-- Witness for C4 at a concrete subject and timestamps 0, 3, 6. -/
theorem C4_dedup_suppression_witness :
    lookupAssoc ([] : DedupCache) "orders" = none ∧ (3 : Int) - 0 < 5 ∧
      (6 : Int) ≤ 6 - 0 ∧
      ((dedupStep [] "orders" 0).1 = true
        ∧ (dedupStep (dedupStep [] "orders" 0).2 "orders" 3).1 = false
        ∧ (dedupStep (dedupStep [] "orders" 0).2 "orders" 3).2 =
            (dedupStep [] "orders" 0).2
        ∧ (dedupStep (dedupStep (dedupStep [] "orders" 0).2 "orders" 3).2
            "orders" 6).1 = true) :=
  ⟨by decide, by decide, by decide,
    C4_dedup_suppression [] "orders" 0 3 6 (by decide) (by decide) (by decide)⟩

/-! ### C2: no objectType filter in the classifier -/

/-- C2 counterexample: an event whose `object_type` is present and not
`"table"` (here `"index"`), with a tracked `command_tag` and a clean subject,
is accepted by the classifier rather than rejected. -/
theorem C2_counterexample :
    (classify ⟨some "CREATE TABLE", some "orders", none, some "index"⟩
      [] 0).1 = some "orders" := by
  decide

/-- C2 amended: `handle_schema_notification` never reads the payload's
`object_type` field, so classification is entirely independent of it. -/
theorem C2_no_object_type_filter (a b c ot ot' : Option String)
    (cache : DedupCache) (now : Int) :
    classify ⟨a, b, c, ot⟩ cache now = classify ⟨a, b, c, ot'⟩ cache now := rfl

/-! ### C10: truncation is the identity below the limit, total on None -/

/-- C10: `safe_truncate` returns text of length at most 2500 unchanged (no
marker), and returns the empty string on `None` or empty input. -/
theorem C10_truncate_identity :
    (∀ t : String, t.length ≤ 2500 → safe_truncate (some t) 2500 = t)
    ∧ safe_truncate none 2500 = ""
    ∧ safe_truncate (some "") 2500 = "" := by
  refine ⟨fun t h => ?_, rfl, rfl⟩
  by_cases he : t.data.isEmpty
  · have : t = "" := by
      apply String.ext
      simpa [List.isEmpty_iff] using he
    simp [safe_truncate, he, this]
  · simp [safe_truncate, he, h]

/-- Witness for C10 at the concrete string "abc". -/
theorem C10_truncate_identity_witness :
    ("abc" : String).length ≤ 2500 ∧ safe_truncate (some "abc") 2500 = "abc" :=
  ⟨by decide, C10_truncate_identity.1 "abc" (by decide)⟩

/-! ### C7: truncation over the limit -/

theorem length_mk (l : List Char) : (String.mk l).length = l.length :=
  (String.length_data (String.mk l)).symm

/-- C7: for text strictly longer than the 2500-character budget,
`safe_truncate` returns a prefix of the input followed by the truncation
marker, and the whole result is at most 2800 characters. -/
theorem C7_truncation (t : String) (h : 2500 < t.length) :
    safe_truncate (some t) 2500 = String.mk (t.data.take 2500) ++ truncMarker
    ∧ (safe_truncate (some t) 2500).length ≤ 2800
    ∧ ∃ rest : String, t = String.mk (t.data.take 2500) ++ rest := by
  have hlen : t.data.length = t.length := String.length_data t
  have hne : t.data.isEmpty = false := by
    rcases hd : t.data with _ | ⟨c, l⟩
    · rw [hd] at hlen
      simp only [List.length_nil] at hlen
      omega
    · rfl
  have hnle : ¬(t.length ≤ 2500) := by omega
  have heq : safe_truncate (some t) 2500 =
      String.mk (t.data.take 2500) ++ truncMarker := by
    rw [safe_truncate, hne]
    simp only [Bool.false_eq_true, if_false, hnle]
  refine ⟨heq, ?_, ?_⟩
  · rw [heq, String.length_append, length_mk, List.length_take]
    have hmarker : truncMarker.length = 40 := by decide
    rw [hmarker]
    omega
  · refine ⟨String.mk (t.data.drop 2500), ?_⟩
    apply String.ext
    rw [String.data_append]
    show t.data = t.data.take 2500 ++ t.data.drop 2500
    rw [List.take_append_drop]

/-- Witness for C7 at a concrete 5000-character input. -/
theorem C7_truncation_witness :
    2500 < (String.mk (List.replicate 5000 'a')).length
    ∧ safe_truncate (some (String.mk (List.replicate 5000 'a'))) 2500 =
        String.mk ((String.mk (List.replicate 5000 'a')).data.take 2500) ++
          truncMarker
    ∧ (safe_truncate (some (String.mk (List.replicate 5000 'a')))
        2500).length ≤ 2800 := by
  have hlen : 2500 < (String.mk (List.replicate 5000 'a')).length := by
    rw [← String.length_data]
    show 2500 < (List.replicate 5000 'a').length
    rw [List.length_replicate]
    norm_num
  exact ⟨hlen, (C7_truncation (String.mk (List.replicate 5000 'a')) hlen).1,
    (C7_truncation (String.mk (List.replicate 5000 'a')) hlen).2.1⟩

/-! ### C3: normalization idempotence -/

theorem replaceSkip_id_of_not_contains (pat repl l : List Char)
    (h : containsSub pat l = false) :
    replaceSkip pat repl 0 l = l := by
  induction l with
  | nil => rfl
  | cons c rest ih =>
    simp only [containsSub, Bool.or_eq_false_iff] at h
    simp only [replaceSkip, h.1, Bool.false_eq_true, if_false]
    rw [ih h.2]

theorem dropWhile_dropWhile (p : Char → Bool) (l : List Char) :
    List.dropWhile p (List.dropWhile p l) = List.dropWhile p l := by
  induction l with
  | nil => rfl
  | cons c rest ih =>
    rw [List.dropWhile_cons]
    by_cases hc : p c = true
    · rw [if_pos hc]
      exact ih
    · rw [if_neg hc, List.dropWhile_cons, if_neg hc]

theorem head?_dropWhile (p : Char → Bool) (l : List Char) (c : Char)
    (h : (List.dropWhile p l).head? = some c) : p c = false := by
  induction l with
  | nil => simp at h
  | cons d rest ih =>
    rw [List.dropWhile_cons] at h
    by_cases hd : p d = true
    · rw [if_pos hd] at h
      exact ih h
    · rw [if_neg hd] at h
      simp only [List.head?_cons, Option.some.injEq] at h
      subst h
      exact Bool.eq_false_iff.2 hd

theorem dropWhile_eq_self_of_head (p : Char → Bool) (l : List Char)
    (h : ∀ c, l.head? = some c → p c = false) : l.dropWhile p = l := by
  cases l with
  | nil => rfl
  | cons c rest =>
    rw [List.dropWhile_cons, if_neg]
    simp [h c rfl]

theorem getLast?_dropWhile (p : Char → Bool) (x : List Char)
    (h : x.dropWhile p ≠ []) :
    (x.dropWhile p).getLast? = x.getLast? := by
  conv_rhs => rw [← List.takeWhile_append_dropWhile p x]
  rw [List.getLast?_append]
  cases hg : (x.dropWhile p).getLast? with
  | none => exact absurd (List.getLast?_eq_none_iff.1 hg) h
  | some y => rfl

theorem stripChars_idem (l : List Char) :
    stripChars (stripChars l) = stripChars l := by
  set a := l.dropWhile isPySpace with ha
  set c := a.reverse.dropWhile isPySpace with hcdef
  have hstrip : stripChars l = c.reverse := rfl
  rw [hstrip, stripChars]
  by_cases hc : c = []
  · rw [hc]
    simp
  · have hhead : ∀ ch, c.reverse.head? = some ch → isPySpace ch = false := by
      intro ch hch
      rw [List.head?_reverse] at hch
      have hgl : c.getLast? = a.reverse.getLast? := by
        rw [hcdef]
        exact getLast?_dropWhile isPySpace a.reverse (by rw [← hcdef]; exact hc)
      rw [hgl, List.getLast?_reverse] at hch
      exact head?_dropWhile isPySpace l ch (by rw [← ha]; exact hch)
    have h1 : c.reverse.dropWhile isPySpace = c.reverse :=
      dropWhile_eq_self_of_head _ _ hhead
    rw [h1, List.reverse_reverse]
    have h2 : c.dropWhile isPySpace = c := by
      rw [hcdef]
      exact dropWhile_dropWhile _ _
    rw [h2]

/-- C3 counterexample: normalization is not idempotent.  On the raw
identifier `pub"lic.foo`, the first pass strips the quote and *creates* the
prefix `public.`, which a second pass then removes:
`normalize "pub\"lic.foo" = "public.foo"` but
`normalize "public.foo" = "foo"`. -/
theorem C3_counterexample :
    normalize (normalize "pub\"lic.foo") ≠ normalize "pub\"lic.foo" := by
  decide

/-- C3 amended: normalization is idempotent on exactly those inputs whose
normal form contains none of the three stripped patterns (`public.`, the
double quote, `[]`) as a substring — in particular removing quotes or
brackets must not create a new occurrence of a pattern. -/
theorem C3_normalize_idem_conditional (x : String)
    (h1 : containsSub "public.".data (normalize x).data = false)
    (h2 : containsSub ['"'] (normalize x).data = false)
    (h3 : containsSub "[]".data (normalize x).data = false) :
    normalize (normalize x) = normalize x := by
  have e1 : replaceList "public.".data [] (normalize x).data =
      (normalize x).data :=
    replaceSkip_id_of_not_contains _ _ _ h1
  have e2 : replaceList ['"'] [] (normalize x).data = (normalize x).data :=
    replaceSkip_id_of_not_contains _ _ _ h2
  have e3 : replaceList "[]".data [] (normalize x).data = (normalize x).data :=
    replaceSkip_id_of_not_contains _ _ _ h3
  apply String.ext
  show stripChars (replaceList "[]".data []
      (replaceList ['"'] []
        (replaceList "public.".data [] (normalize x).data))) =
    (normalize x).data
  rw [e1, e2, e3]
  show stripChars (stripChars (replaceList "[]".data []
      (replaceList ['"'] []
        (replaceList "public.".data [] x.data)))) =
    stripChars (replaceList "[]".data []
      (replaceList ['"'] []
        (replaceList "public.".data [] x.data)))
  exact stripChars_idem _

/-- Witness for the amended C3 at the spec's own example identifier. -/
theorem C3_normalize_idem_witness :
    containsSub "public.".data (normalize "public.\"Orders\"[]").data = false
    ∧ containsSub ['"'] (normalize "public.\"Orders\"[]").data = false
    ∧ containsSub "[]".data (normalize "public.\"Orders\"[]").data = false
    ∧ normalize (normalize "public.\"Orders\"[]") =
        normalize "public.\"Orders\"[]" :=
  ⟨by decide, by decide, by decide,
    C3_normalize_idem_conditional "public.\"Orders\"[]"
      (by decide) (by decide) (by decide)⟩

/-! ### Lemmas for the diff engine -/

theorem lookupAssoc_of_mem_nodup {α : Type} (l : List (String × α))
    (hl : (l.map Prod.fst).Nodup) (k : String) (d : α) (h : (k, d) ∈ l) :
    lookupAssoc l k = some d := by
  induction l with
  | nil => simp at h
  | cons p rest ih =>
    rw [List.map_cons, List.nodup_cons] at hl
    rcases List.mem_cons.1 h with h1 | h1
    · cases h1.symm
      rw [lookupAssoc_cons, if_pos rfl]
    · have hk : k ∈ rest.map Prod.fst := List.mem_map.2 ⟨(k, d), h1, rfl⟩
      have hne : p.1 ≠ k := fun he => hl.1 (he ▸ hk)
      rw [lookupAssoc_cons, if_neg hne]
      exact ih hl.2 h1

theorem countP_keyed_none {α : Type} (l : List (String × α))
    (q : String × α → Bool) (k : String)
    (hq : ∀ p, q p = true → p.1 = k)
    (hnone : lookupAssoc l k = none) :
    l.countP q = 0 := by
  rw [List.countP_eq_zero]
  intro p hp hqp
  exact (lookupAssoc_eq_none_iff l k).1 hnone p hp (hq p hqp)

theorem countP_keyed_some {α : Type} (l : List (String × α))
    (hl : (l.map Prod.fst).Nodup) (q : String × α → Bool) (k : String)
    (d : α) (hq : ∀ p, q p = true → p.1 = k)
    (hsome : lookupAssoc l k = some d) :
    l.countP q = if q (k, d) = true then 1 else 0 := by
  induction l with
  | nil => simp [lookupAssoc] at hsome
  | cons p rest ih =>
    rw [List.map_cons, List.nodup_cons] at hl
    rw [lookupAssoc_cons] at hsome
    rw [List.countP_cons]
    by_cases hp : p.1 = k
    · rw [if_pos hp] at hsome
      have hpd : p = (k, d) := by
        rcases p with ⟨p1, p2⟩
        simp only [Option.some.injEq] at hsome
        simp only at hp
        rw [hp, hsome]
      have hrest : rest.countP q = 0 := by
        apply countP_keyed_none rest q k hq
        rw [lookupAssoc_eq_none_iff]
        intro p' hp' he
        exact hl.1 (hp ▸ he ▸ List.mem_map.2 ⟨p', hp', rfl⟩)
      rw [hrest, hpd]
      omega
    · rw [if_neg hp] at hsome
      have hqp : ¬(q p = true) := fun hqp => hp (hq p hqp)
      rw [if_neg hqp, ih hl.2 hsome]
      omega

/-- The three disjoint segments of `schemaDiffEntries`. -/
def addedSeg (old_cols new_cols : Cols) : List ChangeEntry :=
  new_cols.filterMap fun p =>
    if memCols old_cols p.1 then none
    else some (.added p.1 (p.2.typeF.getD "unknown"))

def removedSeg (old_cols new_cols : Cols) : List ChangeEntry :=
  old_cols.filterMap fun p =>
    if memCols new_cols p.1 then none
    else some (.removed p.1)

def modifiedSeg (old_cols new_cols : Cols) : List ChangeEntry :=
  new_cols.filterMap fun p =>
    match lookupAssoc old_cols p.1 with
    | none => none
    | some od =>
      if od.typeF ≠ p.2.typeF then some (.modified p.1 od.typeF p.2.typeF)
      else none

theorem schemaDiffEntries_eq_segs (old_cols new_cols : Cols) :
    schemaDiffEntries old_cols new_cols =
      addedSeg old_cols new_cols ++ removedSeg old_cols new_cols ++
        modifiedSeg old_cols new_cols := rfl

theorem memCols_false_of_lookup_none (cols : Cols) (c : String)
    (h : lookupAssoc cols c = none) : memCols cols c = false := by
  rw [Bool.eq_false_iff]
  intro hm
  have := (memCols_iff cols c).1 hm
  rw [h] at this
  exact Bool.false_ne_true this

theorem memCols_true_of_lookup_some (cols : Cols) (c : String)
    (d : ColDetails) (h : lookupAssoc cols c = some d) :
    memCols cols c = true := by
  rw [memCols_iff, h]
  rfl

theorem mem_addedSeg (old_cols new_cols : Cols) (e : ChangeEntry)
    (h : e ∈ addedSeg old_cols new_cols) :
    ∃ p ∈ new_cols, memCols old_cols p.1 = false
      ∧ e = .added p.1 (p.2.typeF.getD "unknown") := by
  obtain ⟨p, hp, hfp⟩ := List.mem_filterMap.1 h
  by_cases hm : memCols old_cols p.1 = true
  · rw [if_pos hm] at hfp
    exact absurd hfp (by simp)
  · rw [if_neg hm] at hfp
    exact ⟨p, hp, Bool.eq_false_iff.2 hm, (Option.some.inj hfp).symm⟩

theorem mem_removedSeg (old_cols new_cols : Cols) (e : ChangeEntry)
    (h : e ∈ removedSeg old_cols new_cols) :
    ∃ p ∈ old_cols, memCols new_cols p.1 = false ∧ e = .removed p.1 := by
  obtain ⟨p, hp, hfp⟩ := List.mem_filterMap.1 h
  by_cases hm : memCols new_cols p.1 = true
  · rw [if_pos hm] at hfp
    exact absurd hfp (by simp)
  · rw [if_neg hm] at hfp
    exact ⟨p, hp, Bool.eq_false_iff.2 hm, (Option.some.inj hfp).symm⟩

theorem mem_modifiedSeg (old_cols new_cols : Cols) (e : ChangeEntry)
    (h : e ∈ modifiedSeg old_cols new_cols) :
    ∃ p ∈ new_cols, ∃ od, lookupAssoc old_cols p.1 = some od
      ∧ od.typeF ≠ p.2.typeF ∧ e = .modified p.1 od.typeF p.2.typeF := by
  obtain ⟨p, hp, hfp⟩ := List.mem_filterMap.1 h
  cases hlk : lookupAssoc old_cols p.1 with
  | none =>
    rw [hlk] at hfp
    exact absurd hfp (by simp)
  | some od =>
    rw [hlk] at hfp
    have hfp' : (if od.typeF ≠ p.2.typeF then
        some (ChangeEntry.modified p.1 od.typeF p.2.typeF) else none) =
          some e := hfp
    by_cases hne : od.typeF ≠ p.2.typeF
    · rw [if_pos hne] at hfp'
      exact ⟨p, hp, od, hlk, hne, (Option.some.inj hfp').symm⟩
    · rw [if_neg hne] at hfp'
      exact absurd hfp' (by simp)

theorem count_addedSeg_eq_one (old_cols new_cols : Cols)
    (hn : (new_cols.map Prod.fst).Nodup) (c : String) (d : ColDetails)
    (hold : lookupAssoc old_cols c = none)
    (hnew : lookupAssoc new_cols c = some d) :
    (addedSeg old_cols new_cols).count
      (ChangeEntry.added c (d.typeF.getD "unknown")) = 1 := by
  rw [addedSeg, List.count_filterMap]
  have hq : ∀ p : String × ColDetails,
      ((if memCols old_cols p.1 then none
        else some (ChangeEntry.added p.1 (p.2.typeF.getD "unknown"))) ==
          some (ChangeEntry.added c (d.typeF.getD "unknown"))) = true →
      p.1 = c := by
    intro p hqp
    by_cases hm : memCols old_cols p.1 = true
    · rw [if_pos hm] at hqp
      simp at hqp
    · rw [if_neg hm, beq_iff_eq] at hqp
      have h2 := Option.some.inj hqp
      injection h2 with hk hv
  have hm : memCols old_cols c = false := memCols_false_of_lookup_none _ _ hold
  have hqc : ((if memCols old_cols c then none
      else some (ChangeEntry.added c (d.typeF.getD "unknown"))) ==
        some (ChangeEntry.added c (d.typeF.getD "unknown"))) = true := by
    rw [hm]
    simp
  rw [countP_keyed_some new_cols hn _ c d hq hnew, if_pos hqc]

theorem count_removedSeg_eq_one (old_cols new_cols : Cols)
    (ho : (old_cols.map Prod.fst).Nodup) (c : String) (d : ColDetails)
    (hold : lookupAssoc old_cols c = some d)
    (hnew : lookupAssoc new_cols c = none) :
    (removedSeg old_cols new_cols).count (ChangeEntry.removed c) = 1 := by
  rw [removedSeg, List.count_filterMap]
  have hq : ∀ p : String × ColDetails,
      ((if memCols new_cols p.1 then none
        else some (ChangeEntry.removed p.1)) ==
          some (ChangeEntry.removed c)) = true → p.1 = c := by
    intro p hqp
    by_cases hm : memCols new_cols p.1 = true
    · rw [if_pos hm] at hqp
      simp at hqp
    · rw [if_neg hm, beq_iff_eq] at hqp
      have := Option.some.inj hqp
      cases this
      rfl
  have hm : memCols new_cols c = false := memCols_false_of_lookup_none _ _ hnew
  have hqc : ((if memCols new_cols c then none
      else some (ChangeEntry.removed c)) ==
        some (ChangeEntry.removed c)) = true := by
    rw [hm]
    simp
  rw [countP_keyed_some old_cols ho _ c d hq hold, if_pos hqc]

theorem count_modifiedSeg_eq_one (old_cols new_cols : Cols)
    (hn : (new_cols.map Prod.fst).Nodup) (c : String) (dOld dNew : ColDetails)
    (hold : lookupAssoc old_cols c = some dOld)
    (hnew : lookupAssoc new_cols c = some dNew)
    (hne : dOld.typeF ≠ dNew.typeF) :
    (modifiedSeg old_cols new_cols).count
      (ChangeEntry.modified c dOld.typeF dNew.typeF) = 1 := by
  rw [modifiedSeg, List.count_filterMap]
  have hq : ∀ p : String × ColDetails,
      ((match lookupAssoc old_cols p.1 with
        | none => none
        | some od =>
          if od.typeF ≠ p.2.typeF then
            some (ChangeEntry.modified p.1 od.typeF p.2.typeF)
          else none) ==
          some (ChangeEntry.modified c dOld.typeF dNew.typeF)) = true →
      p.1 = c := by
    intro p hqp
    cases hlk : lookupAssoc old_cols p.1 with
    | none =>
      rw [hlk] at hqp
      simp at hqp
    | some od =>
      rw [hlk] at hqp
      have hqp' : ((if od.typeF ≠ p.2.typeF then
          some (ChangeEntry.modified p.1 od.typeF p.2.typeF) else none) ==
            some (ChangeEntry.modified c dOld.typeF dNew.typeF)) = true := hqp
      by_cases hd : od.typeF ≠ p.2.typeF
      · rw [if_pos hd, beq_iff_eq] at hqp'
        have h2 := Option.some.inj hqp'
        injection h2 with hk h3 h4
      · rw [if_neg hd] at hqp'
        simp at hqp'
  have hqc : ((match lookupAssoc old_cols c with
      | none => none
      | some od =>
        if od.typeF ≠ dNew.typeF then
          some (ChangeEntry.modified c od.typeF dNew.typeF)
        else none) ==
        some (ChangeEntry.modified c dOld.typeF dNew.typeF)) = true := by
    rw [hold]
    show ((if dOld.typeF ≠ dNew.typeF then
        some (ChangeEntry.modified c dOld.typeF dNew.typeF) else none) ==
        some (ChangeEntry.modified c dOld.typeF dNew.typeF)) = true
    rw [if_pos hne]
    simp
  rw [countP_keyed_some new_cols hn _ c dNew hq hnew, if_pos hqc]

theorem lookup_none_of_memCols_false (cols : Cols) (c : String)
    (h : memCols cols c = false) : lookupAssoc cols c = none := by
  have h' : ¬(memCols cols c = true) := by
    rw [h]
    simp
  rw [memCols_iff] at h'
  exact Option.not_isSome_iff_eq_none.1 h'

/-- C5: the diff engine produces exactly one "added" entry (carrying the new
type) per column in `new` and not `old`, exactly one "removed" entry per
column in `old` and not `new`, exactly one "type changed" entry (carrying
both types) per common column whose types differ, no other entries, and the
entries are grouped by change kind; on the spec's example pair it yields
exactly added `c`, removed `a`, type-changed `b` (text→varchar). -/
theorem C5_diff_correctness (old_cols new_cols : Cols)
    (ho : (old_cols.map Prod.fst).Nodup)
    (hn : (new_cols.map Prod.fst).Nodup) :
    (∀ c d, lookupAssoc old_cols c = none → lookupAssoc new_cols c = some d →
      (schemaDiffEntries old_cols new_cols).count
        (ChangeEntry.added c (d.typeF.getD "unknown")) = 1)
    ∧ (∀ c d, lookupAssoc old_cols c = some d →
        lookupAssoc new_cols c = none →
      (schemaDiffEntries old_cols new_cols).count (ChangeEntry.removed c) = 1)
    ∧ (∀ c dOld dNew, lookupAssoc old_cols c = some dOld →
        lookupAssoc new_cols c = some dNew → dOld.typeF ≠ dNew.typeF →
      (schemaDiffEntries old_cols new_cols).count
        (ChangeEntry.modified c dOld.typeF dNew.typeF) = 1)
    ∧ (∀ e ∈ schemaDiffEntries old_cols new_cols,
        (∃ c dn, e = ChangeEntry.added c (dn.typeF.getD "unknown")
          ∧ lookupAssoc old_cols c = none ∧ lookupAssoc new_cols c = some dn)
        ∨ (∃ c d0, e = ChangeEntry.removed c
          ∧ lookupAssoc old_cols c = some d0 ∧ lookupAssoc new_cols c = none)
        ∨ (∃ c dOld dNew, e = ChangeEntry.modified c dOld.typeF dNew.typeF
          ∧ lookupAssoc old_cols c = some dOld
          ∧ lookupAssoc new_cols c = some dNew ∧ dOld.typeF ≠ dNew.typeF))
    ∧ (∃ l1 l2 l3, schemaDiffEntries old_cols new_cols = l1 ++ l2 ++ l3
        ∧ (∀ e ∈ l1, ∃ c t, e = ChangeEntry.added c t)
        ∧ (∀ e ∈ l2, ∃ c, e = ChangeEntry.removed c)
        ∧ (∀ e ∈ l3, ∃ c ot nt, e = ChangeEntry.modified c ot nt))
    ∧ schemaDiffEntries
        [("a", ⟨some "int", none, none⟩), ("b", ⟨some "text", none, none⟩)]
        [("b", ⟨some "varchar", none, none⟩), ("c", ⟨some "int", none, none⟩)]
      = [ChangeEntry.added "c" "int", ChangeEntry.removed "a",
          ChangeEntry.modified "b" (some "text") (some "varchar")] := by
  refine ⟨?_, ?_, ?_, ?_, ?_, by decide⟩
  · intro c d h1 h2
    have z2 : (removedSeg old_cols new_cols).count
        (ChangeEntry.added c (d.typeF.getD "unknown")) = 0 := by
      rw [List.count_eq_zero]
      intro hmem
      obtain ⟨p, _, _, he⟩ := mem_removedSeg _ _ _ hmem
      exact ChangeEntry.noConfusion he
    have z3 : (modifiedSeg old_cols new_cols).count
        (ChangeEntry.added c (d.typeF.getD "unknown")) = 0 := by
      rw [List.count_eq_zero]
      intro hmem
      obtain ⟨p, _, od, _, _, he⟩ := mem_modifiedSeg _ _ _ hmem
      exact ChangeEntry.noConfusion he
    rw [schemaDiffEntries_eq_segs, List.count_append, List.count_append,
      count_addedSeg_eq_one old_cols new_cols hn c d h1 h2, z2, z3]
  · intro c d h1 h2
    have z1 : (addedSeg old_cols new_cols).count (ChangeEntry.removed c)
        = 0 := by
      rw [List.count_eq_zero]
      intro hmem
      obtain ⟨p, _, _, he⟩ := mem_addedSeg _ _ _ hmem
      exact ChangeEntry.noConfusion he
    have z3 : (modifiedSeg old_cols new_cols).count (ChangeEntry.removed c)
        = 0 := by
      rw [List.count_eq_zero]
      intro hmem
      obtain ⟨p, _, od, _, _, he⟩ := mem_modifiedSeg _ _ _ hmem
      exact ChangeEntry.noConfusion he
    rw [schemaDiffEntries_eq_segs, List.count_append, List.count_append,
      count_removedSeg_eq_one old_cols new_cols ho c d h1 h2, z1, z3]
  · intro c dOld dNew h1 h2 h3
    have z1 : (addedSeg old_cols new_cols).count
        (ChangeEntry.modified c dOld.typeF dNew.typeF) = 0 := by
      rw [List.count_eq_zero]
      intro hmem
      obtain ⟨p, _, _, he⟩ := mem_addedSeg _ _ _ hmem
      exact ChangeEntry.noConfusion he
    have z2 : (removedSeg old_cols new_cols).count
        (ChangeEntry.modified c dOld.typeF dNew.typeF) = 0 := by
      rw [List.count_eq_zero]
      intro hmem
      obtain ⟨p, _, _, he⟩ := mem_removedSeg _ _ _ hmem
      exact ChangeEntry.noConfusion he
    rw [schemaDiffEntries_eq_segs, List.count_append, List.count_append,
      count_modifiedSeg_eq_one old_cols new_cols hn c dOld dNew h1 h2 h3,
      z1, z2]
  · intro e he
    rw [schemaDiffEntries_eq_segs] at he
    rcases List.mem_append.1 he with he12 | he3
    · rcases List.mem_append.1 he12 with he1 | he2
      · obtain ⟨⟨c0, d0⟩, hp, hm, heq⟩ := mem_addedSeg _ _ _ he1
        refine Or.inl ⟨c0, d0, heq, lookup_none_of_memCols_false _ _ hm, ?_⟩
        exact lookupAssoc_of_mem_nodup new_cols hn c0 d0 hp
      · obtain ⟨⟨c0, d0⟩, hp, hm, heq⟩ := mem_removedSeg _ _ _ he2
        refine Or.inr (Or.inl ⟨c0, d0, heq, ?_,
          lookup_none_of_memCols_false _ _ hm⟩)
        exact lookupAssoc_of_mem_nodup old_cols ho c0 d0 hp
    · obtain ⟨⟨c0, d0⟩, hp, od, hlk, hne, heq⟩ := mem_modifiedSeg _ _ _ he3
      refine Or.inr (Or.inr ⟨c0, od, d0, heq, hlk, ?_, hne⟩)
      exact lookupAssoc_of_mem_nodup new_cols hn c0 d0 hp
  · refine ⟨addedSeg old_cols new_cols, removedSeg old_cols new_cols,
      modifiedSeg old_cols new_cols, schemaDiffEntries_eq_segs _ _,
      ?_, ?_, ?_⟩
    · intro e he
      obtain ⟨p, _, _, heq⟩ := mem_addedSeg _ _ _ he
      exact ⟨p.1, _, heq⟩
    · intro e he
      obtain ⟨p, _, _, heq⟩ := mem_removedSeg _ _ _ he
      exact ⟨p.1, heq⟩
    · intro e he
      obtain ⟨p, _, od, _, _, heq⟩ := mem_modifiedSeg _ _ _ he
      exact ⟨p.1, od.typeF, p.2.typeF, heq⟩

/-- Witness for C5 on the spec's example pair, counting the added entry. -/
theorem C5_diff_correctness_witness :
    (([("a", ⟨some "int", none, none⟩), ("b", ⟨some "text", none, none⟩)]
        : Cols).map Prod.fst).Nodup
    ∧ (([("b", ⟨some "varchar", none, none⟩), ("c", ⟨some "int", none, none⟩)]
        : Cols).map Prod.fst).Nodup
    ∧ (schemaDiffEntries
        [("a", ⟨some "int", none, none⟩), ("b", ⟨some "text", none, none⟩)]
        [("b", ⟨some "varchar", none, none⟩), ("c", ⟨some "int", none, none⟩)]
          ).count (ChangeEntry.added "c"
            ((⟨some "int", none, none⟩ : ColDetails).typeF.getD "unknown"))
        = 1 :=
  ⟨by decide, by decide,
    (C5_diff_correctness
      [("a", ⟨some "int", none, none⟩), ("b", ⟨some "text", none, none⟩)]
      [("b", ⟨some "varchar", none, none⟩), ("c", ⟨some "int", none, none⟩)]
      (by decide) (by decide)).1 "c" ⟨some "int", none, none⟩
      (by decide) (by decide)⟩

/-! ### C8: the no-op diff placeholder -/

/-- C8: whenever the diff engine produces no change entries — in particular
whenever old and new agree as column-to-type maps — `generate_schema_diff`
returns the non-empty informational placeholder, never an empty string. -/
theorem C8_noop_diff :
    (∀ old_cols new_cols : Cols,
      (old_cols.map Prod.fst).Nodup → (new_cols.map Prod.fst).Nodup →
      (∀ c, (lookupAssoc old_cols c).map ColDetails.typeF =
            (lookupAssoc new_cols c).map ColDetails.typeF) →
      generate_schema_diff old_cols new_cols = noChangeText)
    ∧ (∀ old_cols new_cols : Cols,
        schemaDiffEntries old_cols new_cols = [] →
        generate_schema_diff old_cols new_cols = noChangeText)
    ∧ noChangeText ≠ "" := by
  have hgen : ∀ old_cols new_cols : Cols,
      schemaDiffEntries old_cols new_cols = [] →
      generate_schema_diff old_cols new_cols = noChangeText := by
    intro old_cols new_cols h
    rw [generate_schema_diff]
    simp [h]
  refine ⟨?_, hgen, by decide⟩
  intro old_cols new_cols ho hn hsame
  apply hgen
  rw [schemaDiffEntries_eq_segs]
  have ha : addedSeg old_cols new_cols = [] := by
    rw [addedSeg, List.filterMap_eq_nil_iff]
    rintro ⟨c0, d0⟩ hp
    have hnew : lookupAssoc new_cols c0 = some d0 :=
      lookupAssoc_of_mem_nodup new_cols hn c0 d0 hp
    have hs := hsame c0
    rw [hnew] at hs
    rcases hlk : lookupAssoc old_cols c0 with _ | od
    · rw [hlk] at hs
      exact absurd hs (by simp)
    · rw [if_pos (memCols_true_of_lookup_some _ _ _ hlk)]
  have hr : removedSeg old_cols new_cols = [] := by
    rw [removedSeg, List.filterMap_eq_nil_iff]
    rintro ⟨c0, d0⟩ hp
    have hold : lookupAssoc old_cols c0 = some d0 :=
      lookupAssoc_of_mem_nodup old_cols ho c0 d0 hp
    have hs := hsame c0
    rw [hold] at hs
    rcases hlk : lookupAssoc new_cols c0 with _ | nd
    · rw [hlk] at hs
      exact absurd hs (by simp)
    · rw [if_pos (memCols_true_of_lookup_some _ _ _ hlk)]
  have hm : modifiedSeg old_cols new_cols = [] := by
    rw [modifiedSeg, List.filterMap_eq_nil_iff]
    rintro ⟨c0, d0⟩ hp
    have hnew : lookupAssoc new_cols c0 = some d0 :=
      lookupAssoc_of_mem_nodup new_cols hn c0 d0 hp
    have hs := hsame c0
    rw [hnew] at hs
    rcases hlk : lookupAssoc old_cols c0 with _ | od
    · rfl
    · rw [hlk] at hs
      have hod : od.typeF = d0.typeF := by
        simpa using hs
      show (if od.typeF ≠ d0.typeF then
        some (ChangeEntry.modified c0 od.typeF d0.typeF) else none) = none
      rw [if_neg (fun hh => hh hod)]
  rw [ha, hr, hm]
  rfl

/-- Witness for C8 on a concrete structurally equal pair. -/
theorem C8_noop_diff_witness :
    (([("a", ⟨some "int", none, none⟩)] : Cols).map Prod.fst).Nodup
    ∧ generate_schema_diff [("a", ⟨some "int", none, none⟩)]
        [("a", ⟨some "int", none, none⟩)] = noChangeText :=
  ⟨by decide,
    C8_noop_diff.1 [("a", ⟨some "int", none, none⟩)]
      [("a", ⟨some "int", none, none⟩)] (by decide) (by decide)
      (fun _ => rfl)⟩

/-! ### C6: reconciliation completeness -/

theorem pub_inj (t u : String) (h : "public." ++ t = "public." ++ u) :
    t = u := by
  apply String.ext
  have hd := congrArg String.data h
  rw [String.data_append, String.data_append] at hd
  exact List.append_cancel_left hd

theorem foldl_upsert_lookup_notin (v : String → Snapshot)
    (live : List String) (st : Store) (k : String)
    (h : ∀ t ∈ live, ¬("public." ++ t = k)) :
    lookupAssoc
      (live.foldl (fun st t => updateAssoc st ("public." ++ t) (v t)) st) k =
      lookupAssoc st k := by
  induction live generalizing st with
  | nil => rfl
  | cons u rest ih =>
    rw [List.foldl_cons, ih _ (fun t ht => h t (List.mem_cons_of_mem u ht))]
    exact lookupAssoc_updateAssoc_ne st ("public." ++ u) k (v u)
      (fun he => h u (List.mem_cons_self u rest) he.symm)

theorem foldl_upsert_lookup_mem (v : String → Snapshot)
    (live : List String) (st : Store) (t : String) (ht : t ∈ live) :
    lookupAssoc
      (live.foldl (fun st u => updateAssoc st ("public." ++ u) (v u)) st)
      ("public." ++ t) = some (v t) := by
  induction live generalizing st with
  | nil => simp at ht
  | cons u rest ih =>
    rw [List.foldl_cons]
    by_cases hr : t ∈ rest
    · exact ih _ hr
    · have hu : t = u := by
        rcases List.mem_cons.1 ht with h | h
        · exact h
        · exact absurd h hr
      subst hu
      rw [foldl_upsert_lookup_notin v rest _ ("public." ++ t)
        (fun x hx he => hr (pub_inj x t he ▸ hx))]
      exact lookupAssoc_updateAssoc_self st ("public." ++ t) (v t)

theorem foldl_upsert_keys_mem (v : String → Snapshot)
    (live : List String) (st : Store) (k : String) :
    (k ∈ (live.foldl
        (fun st t => updateAssoc st ("public." ++ t) (v t)) st).map Prod.fst)
      ↔ k ∈ st.map Prod.fst ∨ ∃ t ∈ live, k = "public." ++ t := by
  induction live generalizing st with
  | nil => simp
  | cons u rest ih =>
    rw [List.foldl_cons, ih]
    rw [mem_keys_updateAssoc]
    simp only [List.mem_cons]
    constructor
    · rintro ((h | h) | ⟨t, ht, hk⟩)
      · exact Or.inl h
      · exact Or.inr ⟨u, Or.inl rfl, h⟩
      · exact Or.inr ⟨t, Or.inr ht, hk⟩
    · rintro (h | ⟨t, (rfl | ht), hk⟩)
      · exact Or.inl (Or.inl h)
      · exact Or.inl (Or.inr hk)
      · exact Or.inr ⟨t, ht, hk⟩

theorem mem_keys_prunedStore (store : Store) (lf : List String) (k : String)
    (h : k ∈ (prunedStore store lf).map Prod.fst) : k ∈ lf := by
  rw [prunedStore] at h
  by_cases he : lf.isEmpty
  · rw [if_pos he] at h
    simp at h
  · rw [if_neg he] at h
    obtain ⟨p, hp, rfl⟩ := List.mem_map.1 h
    have := (List.mem_filter.1 hp).2
    simpa using this

/-- C6: after `sync_schema_snapshots`, the snapshot store's key set equals
exactly the live base tables of the default schema minus the store's own
table (every stale snapshot deleted, nothing extra kept), and every live
table holds a fresh snapshot produced by the introspector. -/
theorem C6_reconciliation (store : Store) (all_tables : List String)
    (describe : String → Cols × String) :
    (∀ k, k ∈ (sync_schema_snapshots store all_tables describe).map Prod.fst
      ↔ ∃ t, t ∈ all_tables ∧ t ≠ "schema_snapshots"
          ∧ k = "public." ++ t)
    ∧ (∀ t, t ∈ all_tables → t ≠ "schema_snapshots" →
        lookupAssoc (sync_schema_snapshots store all_tables describe)
          ("public." ++ t) =
          some ⟨(describe ("public." ++ t)).1,
            (describe ("public." ++ t)).2⟩) := by
  have hlive : ∀ t, t ∈ liveTablesOf all_tables ↔
      t ∈ all_tables ∧ t ≠ "schema_snapshots" := by
    intro t
    rw [liveTablesOf, List.mem_filter]
    simp
  constructor
  · intro k
    rw [sync_schema_snapshots]
    rw [foldl_upsert_keys_mem]
    constructor
    · rintro (hk | ⟨t, ht, hk⟩)
      · have hmem := mem_keys_prunedStore _ _ _ hk
        obtain ⟨t, ht, rfl⟩ := List.mem_map.1 hmem
        exact ⟨t, ((hlive t).1 ht).1, ((hlive t).1 ht).2, rfl⟩
      · exact ⟨t, ((hlive t).1 ht).1, ((hlive t).1 ht).2, hk⟩
    · rintro ⟨t, ht, hne, rfl⟩
      exact Or.inr ⟨t, (hlive t).2 ⟨ht, hne⟩, rfl⟩
  · intro t ht hne
    rw [sync_schema_snapshots]
    exact foldl_upsert_lookup_mem
      (fun u => ⟨(describe ("public." ++ u)).1, (describe ("public." ++ u)).2⟩)
      _ _ t ((hlive t).2 ⟨ht, hne⟩)

/-- Witness for C6 on a concrete store and catalog listing. -/
theorem C6_reconciliation_witness :
    "orders" ∈ ["orders", "schema_snapshots"]
    ∧ lookupAssoc
        (sync_schema_snapshots [("public.ghost", ⟨[], "g"⟩)]
          ["orders", "schema_snapshots"] (fun n => ([], "sql " ++ n)))
        ("public." ++ "orders") =
        some ⟨((fun n => (([] : Cols), "sql " ++ n)) ("public." ++ "orders")).1,
          ((fun n => (([] : Cols), "sql " ++ n)) ("public." ++ "orders")).2⟩ :=
  ⟨by decide,
    (C6_reconciliation [("public.ghost", ⟨[], "g"⟩)]
      ["orders", "schema_snapshots"] (fun n => ([], "sql " ++ n))).2
      "orders" (by decide) (by decide)⟩

/-! ### C1: database-phase failure does not abort the message send -/

/-- C1 counterexample: a concrete ALTER event whose database phase raised
(`fail "boom"`) still produces exactly one outbound Slack message (the claim
says none may be sent), alongside the logged error. -/
theorem C1_counterexample :
    (afterDbPhase "ALTER TABLE" "orders" []
      (DbPhaseResult.fail "boom" "")).2.2 ≠ []
    ∧ (afterDbPhase "ALTER TABLE" "orders" []
        (DbPhaseResult.fail "boom" "")).2.1 = ["❌ DB Ops Error: boom"] := by
  constructor
  · decide
  · decide

/-- C1 amended: a failure raised inside the database phase is caught and
logged, leaves the store unchanged, and the branch's outbound message is
STILL composed and sent (built from whatever `diff_text` existed at the
raise); only a failure of the connection attempt itself (bot.py line 204,
outside the `try`) propagates out of the handler with no log line and no
message. -/
theorem C1_db_failure_behaviour (command normalized_name : String)
    (store : Store) (e diffText ce : String) (r : DbPhaseResult) :
    afterDbPhase command normalized_name store
        (DbPhaseResult.fail e diffText) =
      (store, ["❌ DB Ops Error: " ++ e],
        [buildSchemaMessage command normalized_name diffText])
    ∧ handleDbAndSend command normalized_name store (Except.error ce) r =
        Except.error ce :=
  ⟨rfl, rfl⟩

end Bot
